import Mathlib

/-
Formal model of the Chat_Room backend core: the session/credential lifecycle
manager (chat-backend/src/modules/auth/auth.service.ts, users.service.ts,
audit.service.ts) and the realtime presence tracker
(chat-backend/src/realtime/socket.ts).

The embedding is shallow: each TypeScript service function becomes a pure Lean
function on an explicit state.  Persistent storage (Prisma) is modelled as
lists of rows inside the state.  Cryptographic primitives are idealized:
  * argon2 hashing is modelled as an injective digest with exact verification
    (verify (hash x) y = true iff x = y) -- collision-free one-way hash;
  * jwt signing is modelled by a Token structure carrying the signed claims
    plus a validSig flag; jwt.verify checks the flag and the expiry;
  * crypto.randomUUID is modelled by a fresh-nonce counter threaded through
    the state, so each generated value is distinct from all earlier ones.
Errors are the HttpError (statusCode, message) values thrown by the services;
the express errorHandler surfaces exactly these to the caller, and maps any
non-HttpError exception to (500, Internal Server Error).
-/

/-- Prisma Role enum. -/
inductive Role where
  | USER
  | ADMIN
deriving DecidableEq, Repr

/-- String form of a role, as serialized into audit payloads. -/
def roleToString : Role → String
  | .USER => "USER"
  | .ADMIN => "ADMIN"

/-- A signed refresh JWT: subject user id, unique jti claim, expiry (ms epoch),
and whether the signature verifies against the refresh secret. -/
structure Token where
  sub : Nat
  jti : Nat
  exp : Nat
  validSig : Bool
deriving DecidableEq, Repr

/-- A signed access JWT (subject, role claim, expiry). -/
structure AccessToken where
  sub : Nat
  role : Role
  exp : Nat
deriving DecidableEq, Repr

/-- HttpError from utils/httpErrors: statusCode plus message; the errorHandler
middleware returns exactly these two fields to the client. -/
structure HttpError where
  statusCode : Nat
  message : String
deriving DecidableEq, Repr

/-- Prisma User row. -/
structure User where
  id : Nat
  username : String
  passwordHash : String
  role : Role
  avatarUrl : Option String
  lastLoginAt : Option Nat
  deletedAt : Option Nat
deriving DecidableEq, Repr

/-- Prisma RefreshToken row.  tokenHash stores the (idealized) argon2 digest
of the refresh token. -/
structure RefreshTokenRecord where
  id : Nat
  userId : Nat
  tokenHash : Token
  createdAt : Nat
  expiresAt : Nat
  revokedAt : Option Nat
  replacedByTokenId : Option Nat
deriving DecidableEq, Repr

/-- Prisma AuditLog row (before/after/metadata JSON flattened to key-value
lists). -/
structure AuditRecord where
  actorUserId : Option Nat
  action : String
  entityType : Option String
  entityId : Option Nat
  before : List (String × String)
  after : List (String × String)
  metadata : List (String × String)
deriving DecidableEq, Repr

/-- The whole persistent + ambient state touched by the session manager:
database tables, the audit table, fresh-id counters modelling cuid()/
randomUUID()/jti generation, and the current wall clock (ms). -/
structure AuthState where
  users : List User
  tokens : List RefreshTokenRecord
  audits : List AuditRecord
  nextRecordId : Nat
  nextJti : Nat
  nextNonce : Nat
  now : Nat
deriving DecidableEq, Repr

/-- env.refreshTtlDays (default 14 in config/env.ts). -/
def refreshTtlDays : Nat := 14

/-- Refresh-token lifetime in milliseconds, as computed in auth.service.ts. -/
def refreshTtlMs : Nat := refreshTtlDays * 24 * 60 * 60 * 1000

/-- env.accessTtlSeconds (default 900). -/
def accessTtlSeconds : Nat := 900

/-- Idealized argon2.hash for passwords: the digest determines exactly its
preimage under verification. -/
def hashPassword (p : String) : String := p

/-- Idealized argon2.verify for passwords. -/
def verifyPassword (h p : String) : Bool := h == p

/-- Idealized argon2.hash for refresh tokens (auth.service.ts
hashRefreshToken). -/
def hashRefreshToken (t : Token) : Token := t

/-- Idealized argon2.verify for refresh tokens (auth.service.ts
verifyRefreshTokenHash): succeeds exactly on the hashed token. -/
def verifyRefreshTokenHash (h t : Token) : Bool := h == t

/-- jwt.sign for refresh tokens (auth.service.ts signRefreshToken): subject,
fresh jti, expiry now + ttl, valid signature. -/
def signRefreshToken (uid : Nat) (jti : Nat) (now : Nat) : Token :=
  { sub := uid, jti := jti, exp := now + refreshTtlMs, validSig := true }

/-- jwt.sign for access tokens (auth.service.ts signAccessToken). -/
def signAccessToken (uid : Nat) (role : Role) (now : Nat) : AccessToken :=
  { sub := uid, role := role, exp := now + accessTtlSeconds * 1000 }

/-- jwt.verify with the refresh secret: returns the subject claim when the
signature is valid and the token is not expired, otherwise fails (the
TypeScript throws; callers catch). -/
def jwtVerify (t : Token) (now : Nat) : Option Nat :=
  if t.validSig && decide (now < t.exp) then some t.sub else none

/-- crypto.randomUUID modelled from the fresh-nonce counter. -/
def randomUUID (n : Nat) : String := "uuid" ++ toString n

/-- JS String.prototype.trim, as a kernel-computable function on the
character list: drop whitespace from both ends. -/
def charListTrim (l : List Char) : List Char :=
  ((l.dropWhile Char.isWhitespace).reverse.dropWhile Char.isWhitespace).reverse

/-- trim on String. -/
def strTrim (s : String) : String := ⟨charListTrim s.data⟩

/-- JS String.prototype.toLowerCase (ASCII model). -/
def strToLower (s : String) : String := ⟨s.data.map Char.toLower⟩

/-- JS String.prototype.startsWith. -/
def strStartsWith (s p : String) : Bool := p.data.isPrefixOf s.data

/-- auth.utils normalizeUsername: trim + toLowerCase. -/
def normalizeUsername (u : String) : String := strToLower (strTrim u)

/-- auth.utils normalizeAvatarUrl: blank or absent input becomes null; a
trimmed value longer than 500 chars or with a disallowed scheme throws
HttpError 400; otherwise the trimmed value is kept. -/
def normalizeAvatarUrl (raw : Option String) : Except HttpError (Option String) :=
  match raw with
  | none => Except.ok none
  | some r =>
    let trimmed := strTrim r
    if trimmed = "" then Except.ok none
    else if 500 < trimmed.length then Except.error ⟨400, "avatarUrl too long"⟩
    else if strStartsWith trimmed "http://" || strStartsWith trimmed "https://" ||
        strStartsWith trimmed "/" then Except.ok (some trimmed)
    else Except.error ⟨400, "avatarUrl must be a relative path or http(s) URL"⟩

/-- AuditService.log: appends one AuditLog row (prisma.auditLog.create). -/
def AuditService.log (s : AuthState) (a : AuditRecord) : AuthState :=
  { s with audits := a :: s.audits }

/-- Result of AuthService.register. -/
structure RegisterOk where
  user : User
deriving DecidableEq, Repr

/-- AuthService.register, with the audit sink's behavior made explicit: when
sinkFails is true the prisma.auditLog.create at the end of register throws,
and since register awaits it with no try/catch the exception propagates
(the errorHandler maps it to 500 Internal Server Error); the user row created
before the audit write stays persisted.  sinkFails = false is the normal
run. -/
def AuthService.registerS (sinkFails : Bool) (s : AuthState)
    (username password : String) (avatarUrlInput : Option String) :
    Except HttpError RegisterOk × AuthState :=
  if username = "" ∨ password = "" then
    (Except.error ⟨400, "username and password are required"⟩, s)
  else if username.length < 3 then (Except.error ⟨400, "username too short"⟩, s)
  else if password.length < 8 then (Except.error ⟨400, "password too short"⟩, s)
  else
    let normalized := normalizeUsername username
    match normalizeAvatarUrl avatarUrlInput with
    | Except.error e => (Except.error e, s)
    | Except.ok avatarUrl =>
      if s.users.any (fun u => decide (u.username = normalized)) then
        (Except.error ⟨409, "username already exists"⟩, s)
      else
        let user : User :=
          { id := s.nextRecordId, username := normalized,
            passwordHash := hashPassword password, role := Role.USER,
            avatarUrl := avatarUrl, lastLoginAt := none, deletedAt := none }
        let s1 : AuthState :=
          { s with users := user :: s.users, nextRecordId := s.nextRecordId + 1 }
        if sinkFails then (Except.error ⟨500, "Internal Server Error"⟩, s1)
        else
          (Except.ok ⟨user⟩,
            AuditService.log s1
              ⟨some user.id, "AUTH_REGISTER", some "User", some user.id, [],
                [("username", user.username), ("role", roleToString user.role)],
                []⟩)

/-- AuthService.register with the audit sink available (the normal run). -/
def AuthService.register (s : AuthState) (username password : String)
    (avatarUrlInput : Option String) : Except HttpError RegisterOk × AuthState :=
  AuthService.registerS false s username password avatarUrlInput

/-- Result of AuthService.login. -/
structure LoginOk where
  accessToken : AccessToken
  refreshToken : Token
  role : Role
deriving DecidableEq, Repr

/-- AuthService.login: normalize username, look up user (failed lookups and
wrong passwords both audit AUTH_LOGIN_FAILED and throw the same 401), then
issue tokens, persist the refresh-token hash, bump lastLoginAt and audit
AUTH_LOGIN_SUCCESS. -/
def AuthService.login (s : AuthState) (username password : String) :
    Except HttpError LoginOk × AuthState :=
  if username = "" ∨ password = "" then
    (Except.error ⟨400, "username and password are required"⟩, s)
  else
    let normalized := normalizeUsername username
    match s.users.find? (fun u => decide (u.username = normalized)) with
    | none =>
      (Except.error ⟨401, "invalid credentials"⟩,
        AuditService.log s
          ⟨none, "AUTH_LOGIN_FAILED", some "User", none, [], [],
            [("reason", "INVALID_CREDENTIALS"),
              ("usernameAttempted", normalized)]⟩)
    | some user =>
      if !(verifyPassword user.passwordHash password) then
        (Except.error ⟨401, "invalid credentials"⟩,
          AuditService.log s
            ⟨some user.id, "AUTH_LOGIN_FAILED", some "User", some user.id, [],
              [], [("reason", "INVALID_CREDENTIALS"),
                ("usernameAttempted", normalized)]⟩)
      else
        let refreshToken := signRefreshToken user.id s.nextJti s.now
        let row : RefreshTokenRecord :=
          { id := s.nextRecordId, userId := user.id,
            tokenHash := hashRefreshToken refreshToken, createdAt := s.now,
            expiresAt := s.now + refreshTtlMs, revokedAt := none,
            replacedByTokenId := none }
        let s1 : AuthState :=
          { s with
            tokens := row :: s.tokens,
            users := s.users.map (fun u =>
              if u.id == user.id then { u with lastLoginAt := some s.now } else u),
            nextRecordId := s.nextRecordId + 1, nextJti := s.nextJti + 1 }
        (Except.ok
            ⟨signAccessToken user.id user.role s.now, refreshToken, user.role⟩,
          AuditService.log s1
            ⟨some user.id, "AUTH_LOGIN_SUCCESS", some "User", some user.id, [],
              [], [("username", user.username)]⟩)

/-- Insert one record into a list kept sorted by createdAt descending. -/
def insertByCreatedDesc (r : RefreshTokenRecord) :
    List RefreshTokenRecord → List RefreshTokenRecord
  | [] => [r]
  | x :: xs =>
    if r.createdAt ≤ x.createdAt then x :: insertByCreatedDesc r xs
    else r :: x :: xs

/-- prisma orderBy createdAt desc, as an insertion sort. -/
def sortByCreatedDesc : List RefreshTokenRecord → List RefreshTokenRecord
  | [] => []
  | x :: xs => insertByCreatedDesc x (sortByCreatedDesc xs)

/-- The candidate set scanned by AuthService.refresh: non-revoked, non-expired
records of the user, most recent first, capped at 10
(prisma.refreshToken.findMany with take 10). -/
def refreshCandidates (s : AuthState) (uid : Nat) : List RefreshTokenRecord :=
  (sortByCreatedDesc (s.tokens.filter (fun t =>
    decide (t.userId = uid ∧ t.revokedAt = none ∧ s.now < t.expiresAt)))).take 10

/-- The candidate set scanned by AuthService.logout: non-revoked records of
the user, most recent first, capped at 20 (no expiry filter in the code). -/
def logoutCandidates (s : AuthState) (uid : Nat) : List RefreshTokenRecord :=
  (sortByCreatedDesc (s.tokens.filter (fun t =>
    decide (t.userId = uid ∧ t.revokedAt = none)))).take 20

/-- Result of AuthService.refresh. -/
structure RefreshOk where
  accessToken : AccessToken
  newRefreshToken : Token
  role : Role
deriving DecidableEq, Repr

/-- AuthService.refresh: the rotation protocol.  Missing token, invalid or
expired signature, no hash match among the candidates, and missing user each
audit AUTH_REFRESH_FAILED and throw a 401; on success a new refresh-token row
is created, the matched row is revoked and linked to it
(prisma.refreshToken.update where id = matched.id), and AUTH_REFRESH_SUCCESS
is audited. -/
def AuthService.refresh (s : AuthState) (refreshToken : Option Token) :
    Except HttpError RefreshOk × AuthState :=
  match refreshToken with
  | none =>
    (Except.error ⟨401, "missing refresh token"⟩,
      AuditService.log s
        ⟨none, "AUTH_REFRESH_FAILED", some "RefreshToken", none, [], [],
          [("reason", "MISSING_REFRESH_TOKEN")]⟩)
  | some tok =>
    match jwtVerify tok s.now with
    | none =>
      (Except.error ⟨401, "invalid refresh token"⟩,
        AuditService.log s
          ⟨none, "AUTH_REFRESH_FAILED", some "RefreshToken", none, [], [],
            [("reason", "INVALID_OR_EXPIRED_REFRESH_TOKEN")]⟩)
    | some userId =>
      match (refreshCandidates s userId).find?
          (fun t => verifyRefreshTokenHash t.tokenHash tok) with
      | none =>
        (Except.error ⟨401, "refresh token not recognized"⟩,
          AuditService.log s
            ⟨some userId, "AUTH_REFRESH_FAILED", some "User", some userId, [],
              [], [("reason", "REFRESH_TOKEN_NOT_RECOGNIZED")]⟩)
      | some matched =>
        match s.users.find? (fun u => decide (u.id = userId)) with
        | none =>
          (Except.error ⟨401, "user not found"⟩,
            AuditService.log s
              ⟨some userId, "AUTH_REFRESH_FAILED", some "User", some userId,
                [], [], [("reason", "USER_NOT_FOUND")]⟩)
        | some user =>
          let newRefreshToken := signRefreshToken user.id s.nextJti s.now
          let newRow : RefreshTokenRecord :=
            { id := s.nextRecordId, userId := user.id,
              tokenHash := hashRefreshToken newRefreshToken,
              createdAt := s.now, expiresAt := s.now + refreshTtlMs,
              revokedAt := none, replacedByTokenId := none }
          let s1 : AuthState :=
            { s with
              tokens := (newRow :: s.tokens).map (fun t =>
                if t.id == matched.id then
                  { t with
                    revokedAt := some s.now,
                    replacedByTokenId := some newRow.id }
                else t),
              nextRecordId := s.nextRecordId + 1, nextJti := s.nextJti + 1 }
          (Except.ok ⟨signAccessToken user.id user.role s.now, newRefreshToken,
              user.role⟩,
            AuditService.log s1
              ⟨some user.id, "AUTH_REFRESH_SUCCESS", some "User", some user.id,
                [], [], [("rotated", "true"), ("oldTokenRevoked", "true")]⟩)

/-- AuthService.logout: absence of the token returns immediately; everything
else runs inside a try/catch whose catch swallows all failures, so the call
never surfaces an error.  A signature-valid token is matched against the
user's non-revoked records; the match (if any) is revoked and AUTH_LOGOUT is
audited only in that case. -/
def AuthService.logout (s : AuthState) (refreshToken : Option Token) :
    Except HttpError Unit × AuthState :=
  match refreshToken with
  | none => (Except.ok (), s)
  | some tok =>
    match jwtVerify tok s.now with
    | none => (Except.ok (), s)
    | some userId =>
      match (logoutCandidates s userId).find?
          (fun t => verifyRefreshTokenHash t.tokenHash tok) with
      | none => (Except.ok (), s)
      | some matched =>
        let s1 : AuthState :=
          { s with tokens := s.tokens.map (fun t =>
              if t.id == matched.id then { t with revokedAt := some s.now }
              else t) }
        (Except.ok (),
          AuditService.log s1
            ⟨some userId, "AUTH_LOGOUT", some "User", some userId, [], [],
              [("revokedRefreshToken", "true")]⟩)

/-- UsersService.deleteUser: 404 when the user is missing or already
soft-deleted, 400 on self-delete; otherwise, in one transaction, every
refresh-token row of the user is revoked (updateMany where userId) and the
user row is soft-deleted: username rewritten to a deleted_ placeholder with a
random suffix, passwordHash replaced by the hash of a fresh random UUID,
avatar cleared, deletedAt set.  The row itself is never removed. -/
def UsersService.deleteUser (s : AuthState) (userId actorUserId : Nat) :
    Except HttpError Unit × AuthState :=
  match s.users.find? (fun u => decide (u.id = userId)) with
  | none => (Except.error ⟨404, "user not found"⟩, s)
  | some user =>
    if user.deletedAt ≠ none then (Except.error ⟨404, "user not found"⟩, s)
    else if userId = actorUserId then
      (Except.error ⟨400, "admins cannot delete themselves"⟩, s)
    else
      let deletedUsername :=
        "deleted_" ++ user.username ++ "_" ++ randomUUID s.nextNonce
      let s1 : AuthState :=
        { s with
          tokens := s.tokens.map (fun t =>
            if t.userId == userId then { t with revokedAt := some s.now } else t),
          users := s.users.map (fun u =>
            if u.id == userId then
              { u with
                username := deletedUsername,
                passwordHash := hashPassword (randomUUID (s.nextNonce + 1)),
                avatarUrl := none, deletedAt := some s.now }
            else u),
          nextNonce := s.nextNonce + 2 }
      (Except.ok (),
        AuditService.log s1
          ⟨some actorUserId, "ADMIN_DELETE_USER", some "User", some userId, [],
            [], [("originalUsername", user.username)]⟩)

/-- The operations that can touch the credential store after a given point in
time, plus the passage of time itself. -/
inductive AuthOp where
  | register (username password : String) (avatar : Option String)
  | login (username password : String)
  | refresh (tok : Option Token)
  | logout (tok : Option Token)
  | deleteUser (userId actorUserId : Nat)
  | tick (dt : Nat)

/-- State transition of one operation (result discarded). -/
def stepState (s : AuthState) : AuthOp → AuthState
  | .register u p a => (AuthService.register s u p a).2
  | .login u p => (AuthService.login s u p).2
  | .refresh tok => (AuthService.refresh s tok).2
  | .logout tok => (AuthService.logout s tok).2
  | .deleteUser uid aid => (UsersService.deleteUser s uid aid).2
  | .tick dt => { s with now := s.now + dt }

/-- Run a sequence of operations. -/
def runOps (s : AuthState) (ops : List AuthOp) : AuthState :=
  ops.foldl stepState s

/-- Number of audit rows with the given action. -/
def auditCount (s : AuthState) (a : String) : Nat :=
  s.audits.countP (fun x => decide (x.action = a))

/-- Number of revoked refresh-token rows. -/
def revokedCount (s : AuthState) : Nat :=
  s.tokens.countP (fun t => decide (t.revokedAt ≠ none))

/-- Well-formedness of the credential store, maintained by the real system:
jti claims recorded in the table are below the freshness counter and pairwise
distinct (crypto.randomUUID collisions are idealized away), and likewise the
row ids (database primary keys). -/
def AuthInv (s : AuthState) : Prop :=
  (∀ t ∈ s.tokens, t.tokenHash.jti < s.nextJti) ∧
  s.tokens.Pairwise (fun a b => a.tokenHash.jti ≠ b.tokenHash.jti) ∧
  (∀ t ∈ s.tokens, t.id < s.nextRecordId) ∧
  s.tokens.Pairwise (fun a b => a.id ≠ b.id)

/-- Value stored in the presence map of realtime/socket.ts. -/
structure PresenceData where
  username : String
  avatarUrl : Option String
  connections : Nat
deriving DecidableEq, Repr

/-- The in-memory presence Map, userId to PresenceData. -/
abbrev PresenceMap := List (Nat × PresenceData)

/-- Map.get. -/
def presenceGet (m : PresenceMap) (uid : Nat) : Option PresenceData :=
  (m.find? (fun p => p.1 == uid)).map Prod.snd

/-- Map.set: replace the existing binding, else insert. -/
def presenceSet : PresenceMap → Nat → PresenceData → PresenceMap
  | [], uid, d => [(uid, d)]
  | (k, v) :: rest, uid, d =>
    if k == uid then (k, d) :: rest else (k, v) :: presenceSet rest uid d

/-- Map.delete. -/
def presenceDelete (m : PresenceMap) (uid : Nat) : PresenceMap :=
  m.filter (fun p => p.1 != uid)

/-- A connection or disconnection handled by initSocket.  A connect event
carries the username and avatar that the auth middleware fetched from the
database for this handshake. -/
inductive PresenceEvent where
  | connect (uid : Nat) (username : String) (avatarUrl : Option String)
  | disconnect (uid : Nat)
deriving DecidableEq, Repr

/-- One step of the connection / disconnect handlers of initSocket: a first
connection creates the entry with count 1, further connections keep the
stored username/avatar and increment the count; a disconnect decrements and
deletes the entry when the count reaches zero (absent users are ignored). -/
def presenceStep (m : PresenceMap) : PresenceEvent → PresenceMap
  | .connect uid username avatarUrl =>
    match presenceGet m uid with
    | none => presenceSet m uid ⟨username, avatarUrl, 1⟩
    | some existing =>
      presenceSet m uid
        ⟨existing.username, existing.avatarUrl, existing.connections + 1⟩
  | .disconnect uid =>
    match presenceGet m uid with
    | none => m
    | some current =>
      if current.connections - 1 = 0 then presenceDelete m uid
      else
        presenceSet m uid
          ⟨current.username, current.avatarUrl, current.connections - 1⟩

/-- Process a sequence of socket events. -/
def presenceRun (m : PresenceMap) (evs : List PresenceEvent) : PresenceMap :=
  evs.foldl presenceStep m

/-- Connection count currently tracked for a user (0 when absent). -/
def connCount (m : PresenceMap) (uid : Nat) : Nat :=
  match presenceGet m uid with
  | some d => d.connections
  | none => 0

/-- Number of connect events for a user in a sequence. -/
def connectsOf (uid : Nat) (evs : List PresenceEvent) : Nat :=
  evs.countP (fun e =>
    match e with
    | .connect u _ _ => u == uid
    | .disconnect _ => false)

/-- Number of disconnect events for a user in a sequence. -/
def disconnectsOf (uid : Nat) (evs : List PresenceEvent) : Nat :=
  evs.countP (fun e =>
    match e with
    | .connect _ _ _ => false
    | .disconnect u => u == uid)

/-- Socket.IO fires exactly one disconnect per accepted connection, so along
every prefix of a real event sequence no user has more disconnects than
connects. -/
def wfEvents (evs : List PresenceEvent) : Prop :=
  ∀ uid n, disconnectsOf uid (evs.take n) ≤ connectsOf uid (evs.take n)

theorem mem_insertByCreatedDesc {t r : RefreshTokenRecord}
    {l : List RefreshTokenRecord} :
    t ∈ insertByCreatedDesc r l ↔ t = r ∨ t ∈ l := by
  induction l with
  | nil => simp [insertByCreatedDesc]
  | cons x xs ih =>
    simp only [insertByCreatedDesc]
    split
    · simp only [List.mem_cons, ih]
      tauto
    · simp only [List.mem_cons]

theorem mem_sortByCreatedDesc {t : RefreshTokenRecord}
    {l : List RefreshTokenRecord} :
    t ∈ sortByCreatedDesc l ↔ t ∈ l := by
  induction l with
  | nil => simp [sortByCreatedDesc]
  | cons x xs ih =>
    simp only [sortByCreatedDesc, mem_insertByCreatedDesc, ih, List.mem_cons]

theorem mem_refreshCandidates {s : AuthState} {uid : Nat}
    {t : RefreshTokenRecord} (h : t ∈ refreshCandidates s uid) :
    t ∈ s.tokens ∧ t.userId = uid ∧ t.revokedAt = none ∧ s.now < t.expiresAt := by
  have h1 := List.mem_of_mem_take h
  rw [mem_sortByCreatedDesc] at h1
  have h2 := List.mem_filter.mp h1
  refine ⟨h2.1, ?_⟩
  simpa using h2.2

theorem mem_logoutCandidates {s : AuthState} {uid : Nat}
    {t : RefreshTokenRecord} (h : t ∈ logoutCandidates s uid) :
    t ∈ s.tokens ∧ t.userId = uid ∧ t.revokedAt = none := by
  have h1 := List.mem_of_mem_take h
  rw [mem_sortByCreatedDesc] at h1
  have h2 := List.mem_filter.mp h1
  refine ⟨h2.1, ?_⟩
  simpa using h2.2

theorem pairwise_key_unique {α β : Type} (key : α → β) {l : List α}
    (h : l.Pairwise (fun a b => key a ≠ key b)) {a b : α}
    (ha : a ∈ l) (hb : b ∈ l) (hk : key a = key b) : a = b := by
  induction l with
  | nil => simp at ha
  | cons x xs ih =>
    rcases List.pairwise_cons.mp h with ⟨hx, hxs⟩
    rcases List.mem_cons.mp ha with rfl | ha'
    · rcases List.mem_cons.mp hb with rfl | hb'
      · rfl
      · exact absurd hk (hx _ hb')
    · rcases List.mem_cons.mp hb with rfl | hb'
      · exact absurd hk.symm (hx _ ha')
      · exact ih hxs ha' hb'

/-- After a refresh token r has been consumed, the state satisfies: every
stored hash matching r belongs to a revoked row, and r's jti is in the past
of the freshness counter (so no future row can match r either). -/
def TokenSafe (s : AuthState) (r : Token) : Prop :=
  r.jti < s.nextJti ∧ ∀ t ∈ s.tokens, t.tokenHash = r → t.revokedAt ≠ none

theorem revoke_map_safe {r : Token} {l : List RefreshTokenRecord}
    {f : RefreshTokenRecord → RefreshTokenRecord}
    (hf : ∀ t, (f t).tokenHash = t.tokenHash ∧
      ((f t).revokedAt = t.revokedAt ∨ ∃ x, (f t).revokedAt = some x))
    (h : ∀ t ∈ l, t.tokenHash = r → t.revokedAt ≠ none) :
    ∀ t' ∈ l.map f, t'.tokenHash = r → t'.revokedAt ≠ none := by
  intro t' ht' hhash
  rcases List.mem_map.mp ht' with ⟨t, htl, rfl⟩
  rcases (hf t).2 with heq | ⟨x, hx⟩
  · rw [heq]
    exact h t htl (by rw [← (hf t).1]; exact hhash)
  · rw [hx]
    simp

theorem tokenSafe_register (s : AuthState) (r : Token) (h : TokenSafe s r)
    (b : Bool) (u p : String) (a : Option String) :
    TokenSafe (AuthService.registerS b s u p a).2 r := by
  simp only [AuthService.registerS]
  repeat' split
  all_goals exact h

theorem tokenSafe_login (s : AuthState) (r : Token) (h : TokenSafe s r)
    (u p : String) : TokenSafe (AuthService.login s u p).2 r := by
  simp only [AuthService.login]
  split
  · exact h
  split
  · exact h
  split
  · exact h
  · refine ⟨Nat.lt_succ_of_lt h.1, ?_⟩
    intro t ht hhash
    rcases List.mem_cons.mp ht with rfl | ht2
    · exfalso
      have hj : r.jti = s.nextJti := by
        rw [← hhash]
        rfl
      have h1 := h.1
      omega
    · exact h.2 t ht2 hhash

theorem tokenSafe_refresh (s : AuthState) (r : Token) (h : TokenSafe s r)
    (tok : Option Token) : TokenSafe (AuthService.refresh s tok).2 r := by
  cases tok with
  | none => exact h
  | some t0 =>
    simp only [AuthService.refresh]
    split
    · exact h
    split
    · exact h
    split
    · exact h
    · rename_i userId heqj matched heqm user hequ
      refine ⟨Nat.lt_succ_of_lt h.1, ?_⟩
      apply revoke_map_safe
      · intro t
        constructor
        · split <;> rfl
        · split
          · right
            exact ⟨s.now, rfl⟩
          · left
            rfl
      · intro t ht hhash
        rcases List.mem_cons.mp ht with rfl | ht2
        · exfalso
          have hj : r.jti = s.nextJti := by
            rw [← hhash]
            rfl
          have h1 := h.1
          omega
        · exact h.2 t ht2 hhash

theorem tokenSafe_logout (s : AuthState) (r : Token) (h : TokenSafe s r)
    (tok : Option Token) : TokenSafe (AuthService.logout s tok).2 r := by
  cases tok with
  | none => exact h
  | some t0 =>
    simp only [AuthService.logout]
    split
    · exact h
    split
    · exact h
    · refine ⟨h.1, ?_⟩
      apply revoke_map_safe
      · intro t
        constructor
        · split <;> rfl
        · split
          · right
            exact ⟨s.now, rfl⟩
          · left
            rfl
      · exact h.2

theorem tokenSafe_deleteUser (s : AuthState) (r : Token) (h : TokenSafe s r)
    (uid aid : Nat) : TokenSafe (UsersService.deleteUser s uid aid).2 r := by
  simp only [UsersService.deleteUser]
  split
  · exact h
  split
  · exact h
  split
  · exact h
  · refine ⟨h.1, ?_⟩
    apply revoke_map_safe
    · intro t
      constructor
      · split <;> rfl
      · split
        · right
          exact ⟨s.now, rfl⟩
        · left
          rfl
    · exact h.2

theorem tokenSafe_step (s : AuthState) (r : Token) (h : TokenSafe s r)
    (op : AuthOp) : TokenSafe (stepState s op) r := by
  cases op with
  | register u p a => exact tokenSafe_register s r h false u p a
  | login u p => exact tokenSafe_login s r h u p
  | refresh tok => exact tokenSafe_refresh s r h tok
  | logout tok => exact tokenSafe_logout s r h tok
  | deleteUser uid aid => exact tokenSafe_deleteUser s r h uid aid
  | tick dt => exact h

theorem tokenSafe_runOps (s : AuthState) (r : Token) (h : TokenSafe s r)
    (ops : List AuthOp) : TokenSafe (runOps s ops) r := by
  induction ops generalizing s with
  | nil => exact h
  | cons op rest ih => exact ih _ (tokenSafe_step s r h op)

theorem refresh_fails_of_safe {s : AuthState} {r : Token} (h : TokenSafe s r) :
    ∃ e : HttpError, (AuthService.refresh s (some r)).1 = Except.error e ∧
      e.statusCode = 401 := by
  unfold AuthService.refresh
  cases hj : jwtVerify r s.now with
  | none => exact ⟨⟨401, "invalid refresh token"⟩, by simp [hj], rfl⟩
  | some uid =>
    have hnone : (refreshCandidates s uid).find?
        (fun t => verifyRefreshTokenHash t.tokenHash r) = none := by
      cases hm : (refreshCandidates s uid).find?
          (fun t => verifyRefreshTokenHash t.tokenHash r) with
      | none => rfl
      | some t =>
        exfalso
        have hmem := List.mem_of_find?_eq_some hm
        have hhash : t.tokenHash = r := by
          have hpred := List.find?_some hm
          simpa [verifyRefreshTokenHash] using hpred
        have hc := mem_refreshCandidates hmem
        exact h.2 t hc.1 hhash hc.2.2.1
    exact ⟨⟨401, "refresh token not recognized"⟩, by simp [hj, hnone], rfl⟩

theorem refresh_ok_safe {s : AuthState} {r : Token} {out : RefreshOk}
    (hInv : AuthInv s)
    (hok : (AuthService.refresh s (some r)).1 = Except.ok out) :
    TokenSafe (AuthService.refresh s (some r)).2 r := by
  simp only [AuthService.refresh] at hok ⊢
  cases hj : jwtVerify r s.now with
  | none => simp [hj] at hok
  | some uid =>
    simp only [hj] at hok ⊢
    cases hm : (refreshCandidates s uid).find?
        (fun t => verifyRefreshTokenHash t.tokenHash r) with
    | none => simp [hm] at hok
    | some matched =>
      simp only [hm] at hok ⊢
      cases hu : s.users.find? (fun u => decide (u.id = uid)) with
      | none => simp [hu] at hok
      | some user =>
        simp only [hu] at hok ⊢
        have hmem := List.mem_of_find?_eq_some hm
        have hhash : matched.tokenHash = r := by
          have hpred := List.find?_some hm
          simpa [verifyRefreshTokenHash] using hpred
        have hmemtok := (mem_refreshCandidates hmem).1
        have hjti : r.jti < s.nextJti := by
          rw [← hhash]
          exact hInv.1 matched hmemtok
        refine ⟨Nat.lt_succ_of_lt hjti, ?_⟩
        intro t' ht' hh
        rcases List.mem_map.mp ht' with ⟨t, ht, rfl⟩
        rcases List.mem_cons.mp ht with rfl | ht2
        · exfalso
          split at hh
          · have : r.jti = s.nextJti := by
              rw [← hh]
              rfl
            omega
          · have : r.jti = s.nextJti := by
              rw [← hh]
              rfl
            omega
        · by_cases hb : (t.id == matched.id) = true
          · rw [if_pos hb]
            simp
          · rw [if_neg hb] at hh ⊢
            exfalso
            have hteq : t = matched := by
              apply pairwise_key_unique (fun x => x.tokenHash.jti)
                hInv.2.1 ht2 hmemtok
              rw [hh, hhash]
            rw [hteq] at hb
            simp at hb

/-- C1: once a refresh token r has been consumed by a successful Refresh, any
later Refresh(r) — after any sequence of further register/login/refresh/
logout/delete operations and any passage of time, and regardless of whether
the newly issued token was itself used — fails with an AuthenticationError
(HTTP 401): the matched record was marked revoked at rotation, revoked
records are excluded from every later candidate set, and no future record
can match r again. -/
theorem refresh_rotation_single_use (s : AuthState) (r : Token)
    (out : RefreshOk) (hInv : AuthInv s)
    (hok : (AuthService.refresh s (some r)).1 = Except.ok out)
    (ops : List AuthOp) :
    ∃ e : HttpError,
      (AuthService.refresh (runOps (AuthService.refresh s (some r)).2 ops)
        (some r)).1 = Except.error e ∧ e.statusCode = 401 :=
  refresh_fails_of_safe (tokenSafe_runOps _ r (refresh_ok_safe hInv hok) ops)

/-- A valid refresh token for the one-user demo state. -/
def wTok : Token := { sub := 0, jti := 0, exp := 2000000000, validSig := true }

/-- The demo user. -/
def wUser : User :=
  { id := 0, username := "alice", passwordHash := "password123",
    role := Role.USER, avatarUrl := none, lastLoginAt := none, deletedAt := none }

/-- The active refresh-token record holding the hash of wTok. -/
def wRecord : RefreshTokenRecord :=
  { id := 0, userId := 0, tokenHash := wTok, createdAt := 0,
    expiresAt := 2000000000, revokedAt := none, replacedByTokenId := none }

/-- One user logged in with one active refresh token. -/
def wState : AuthState :=
  { users := [wUser], tokens := [wRecord], audits := [],
    nextRecordId := 1, nextJti := 1, nextNonce := 0, now := 100 }

/-- The result of the first Refresh on the demo state. -/
def wOut : RefreshOk :=
  ⟨signAccessToken 0 Role.USER 100, signRefreshToken 0 1 100, Role.USER⟩

theorem refresh_rotation_single_use_witness :
    AuthInv wState ∧
    (AuthService.refresh wState (some wTok)).1 = Except.ok wOut ∧
    ∃ e : HttpError,
      (AuthService.refresh (runOps (AuthService.refresh wState (some wTok)).2 [])
        (some wTok)).1 = Except.error e ∧ e.statusCode = 401 :=
  ⟨by unfold AuthInv; decide, by rfl,
    refresh_rotation_single_use wState wTok wOut (by unfold AuthInv; decide)
      (by rfl) []⟩

/-- C3 (amended): every failure path of Refresh surfaces an HttpError of
status 401 (the AuthenticationError shape), but the four failure causes
carry four distinct messages — missing token, invalid/expired signature,
hash not recognized, user not found — and the errorHandler returns the
message verbatim, so the message does reveal which check failed.  Only a
replayed (revoked) token and a truly unknown token share one message. -/
theorem refresh_failures_all_401 (s : AuthState) (tok : Option Token)
    (e : HttpError) (herr : (AuthService.refresh s tok).1 = Except.error e) :
    e.statusCode = 401 ∧
    (e.message = "missing refresh token" ∨
      e.message = "invalid refresh token" ∨
      e.message = "refresh token not recognized" ∨
      e.message = "user not found") := by
  cases tok with
  | none =>
    have h2 : Except.error (⟨401, "missing refresh token"⟩ : HttpError) =
        Except.error e := herr
    injection h2 with h3
    cases h3
    exact ⟨rfl, Or.inl rfl⟩
  | some t0 =>
    simp only [AuthService.refresh] at herr
    cases hj : jwtVerify t0 s.now with
    | none =>
      simp only [hj] at herr
      have h2 : Except.error (⟨401, "invalid refresh token"⟩ : HttpError) =
          Except.error e := herr
      injection h2 with h3
      cases h3
      exact ⟨rfl, Or.inr (Or.inl rfl)⟩
    | some uid =>
      simp only [hj] at herr
      cases hm : (refreshCandidates s uid).find?
          (fun t => verifyRefreshTokenHash t.tokenHash t0) with
      | none =>
        simp only [hm] at herr
        have h2 : Except.error (⟨401, "refresh token not recognized"⟩ :
            HttpError) = Except.error e := herr
        injection h2 with h3
        cases h3
        exact ⟨rfl, Or.inr (Or.inr (Or.inl rfl))⟩
      | some matched =>
        simp only [hm] at herr
        cases hu : s.users.find? (fun u => decide (u.id = uid)) with
        | none =>
          simp only [hu] at herr
          have h2 : Except.error (⟨401, "user not found"⟩ : HttpError) =
              Except.error e := herr
          injection h2 with h3
          cases h3
          exact ⟨rfl, Or.inr (Or.inr (Or.inr rfl))⟩
        | some user =>
          simp only [hu] at herr
          simp at herr

theorem refresh_failures_all_401_witness :
    (AuthService.refresh wState none).1 =
      Except.error ⟨401, "missing refresh token"⟩ ∧
    (HttpError.statusCode ⟨401, "missing refresh token"⟩ = 401 ∧
      (HttpError.message ⟨401, "missing refresh token"⟩ = "missing refresh token" ∨
        HttpError.message ⟨401, "missing refresh token"⟩ = "invalid refresh token" ∨
        HttpError.message ⟨401, "missing refresh token"⟩ = "refresh token not recognized" ∨
        HttpError.message ⟨401, "missing refresh token"⟩ = "user not found")) :=
  ⟨rfl, refresh_failures_all_401 wState none ⟨401, "missing refresh token"⟩ rfl⟩

/-- C3 as stated is false: two failure paths of Refresh observably differ in
their message — a missing token yields one message and a bad-signature token
another, so the caller can tell which check failed. -/
theorem refresh_failure_messages_differ_cex :
    (AuthService.refresh wState none).1 =
      Except.error ⟨401, "missing refresh token"⟩ ∧
    (AuthService.refresh wState
        (some ⟨0, 0, 2000000000, false⟩)).1 =
      Except.error ⟨401, "invalid refresh token"⟩ ∧
    ("missing refresh token" : String) ≠ "invalid refresh token" :=
  ⟨rfl, rfl, by decide⟩

theorem logout_ok (s : AuthState) (tok : Option Token) :
    (AuthService.logout s tok).1 = Except.ok () := by
  cases tok with
  | none => rfl
  | some t0 =>
    simp only [AuthService.logout]
    split
    · rfl
    split
    · rfl
    · rfl

theorem logout_noop_of_no_active_match (s' : AuthState) (r : Token)
    (h : ∀ t ∈ s'.tokens, t.tokenHash = r → t.revokedAt ≠ none) :
    (AuthService.logout s' (some r)).2 = s' := by
  simp only [AuthService.logout]
  cases hj : jwtVerify r s'.now with
  | none => simp
  | some uid =>
    have hnone : (logoutCandidates s' uid).find?
        (fun t => verifyRefreshTokenHash t.tokenHash r) = none := by
      cases hm : (logoutCandidates s' uid).find?
          (fun t => verifyRefreshTokenHash t.tokenHash r) with
      | none => rfl
      | some t =>
        exfalso
        have hmem := List.mem_of_find?_eq_some hm
        have hhash : t.tokenHash = r := by
          have hpred := List.find?_some hm
          simpa [verifyRefreshTokenHash] using hpred
        have hc := mem_logoutCandidates hmem
        exact h t hc.1 hhash hc.2.2
    simp [hj, hnone]

theorem countP_revoke_map (l : List RefreshTokenRecord) (mid n : Nat)
    (hpw : l.Pairwise (fun a b => a.id ≠ b.id)) (m : RefreshTokenRecord)
    (hm : m ∈ l) (hid : m.id = mid) (hrev : m.revokedAt = none) :
    (l.map (fun t =>
      if t.id == mid then { t with revokedAt := some n } else t)).countP
        (fun t => decide (t.revokedAt ≠ none)) =
      l.countP (fun t => decide (t.revokedAt ≠ none)) + 1 := by
  induction l with
  | nil => simp at hm
  | cons x xs ih =>
    rcases List.pairwise_cons.mp hpw with ⟨hx, hxs⟩
    rcases List.mem_cons.mp hm with rfl | hm2
    · have htail : xs.map (fun t =>
          if t.id == mid then { t with revokedAt := some n } else t) = xs := by
        have hc : ∀ a ∈ xs, (if a.id == mid then
            { a with revokedAt := some n } else a) = id a := by
          intro a ha
          have hne : a.id ≠ mid := by
            rw [← hid]
            exact (hx a ha).symm
          simp [beq_eq_false_iff_ne.mpr hne]
        rw [List.map_congr_left hc, List.map_id]
      have hhead : (m.id == mid) = true := beq_iff_eq.mpr hid
      rw [List.map_cons, htail, if_pos hhead, List.countP_cons, List.countP_cons]
      simp [hrev]
    · have hxne : x.id ≠ mid := by
        rw [← hid]
        exact hx m hm2
      simp only [List.map_cons, beq_eq_false_iff_ne.mpr hxne, Bool.false_eq_true,
        if_false, List.countP_cons, ih hxs hm2]
      omega

theorem logout_revoked_safe {s : AuthState} {r : Token} {uid : Nat}
    {matched : RefreshTokenRecord} (hInv : AuthInv s)
    (hm : (logoutCandidates s uid).find?
      (fun t => verifyRefreshTokenHash t.tokenHash r) = some matched) :
    ∀ t' ∈ s.tokens.map (fun t =>
        if t.id == matched.id then { t with revokedAt := some s.now } else t),
      t'.tokenHash = r → t'.revokedAt ≠ none := by
  have hmem := List.mem_of_find?_eq_some hm
  have hhash : matched.tokenHash = r := by
    have hpred := List.find?_some hm
    simpa [verifyRefreshTokenHash] using hpred
  have hmemtok := (mem_logoutCandidates hmem).1
  intro t' ht' hh
  rcases List.mem_map.mp ht' with ⟨t, ht, rfl⟩
  by_cases hb : (t.id == matched.id) = true
  · rw [if_pos hb]
    simp
  · rw [if_neg hb] at hh ⊢
    exfalso
    have hteq : t = matched := by
      apply pairwise_key_unique (fun x => x.tokenHash.jti)
        hInv.2.1 ht hmemtok
      rw [hh, hhash]
    rw [hteq] at hb
    simp at hb

/-- C4: Logout never surfaces an error to its caller for any input (missing,
malformed, expired, unmatched or already-revoked tokens all return void); a
second Logout with the same refresh token leaves the state exactly as the
first call left it (so the matching record is revoked at most once and no
second audit row appears); at most one AUTH_LOGOUT audit row is produced
across both calls; and an AUTH_LOGOUT row is produced exactly when a record
was actually revoked by the call. -/
theorem logout_idempotent_single_audit (s : AuthState) (r : Token)
    (hInv : AuthInv s) :
    (∀ tok, (AuthService.logout s tok).1 = Except.ok ()) ∧
    (AuthService.logout (AuthService.logout s (some r)).2 (some r)).2 =
      (AuthService.logout s (some r)).2 ∧
    auditCount (AuthService.logout s (some r)).2 "AUTH_LOGOUT" ≤
      auditCount s "AUTH_LOGOUT" + 1 ∧
    (auditCount (AuthService.logout s (some r)).2 "AUTH_LOGOUT" =
        auditCount s "AUTH_LOGOUT" + 1 ↔
      revokedCount (AuthService.logout s (some r)).2 = revokedCount s + 1) := by
  refine ⟨logout_ok s, ?_⟩
  cases hj : jwtVerify r s.now with
  | none =>
    have hs1 : (AuthService.logout s (some r)).2 = s := by
      simp [AuthService.logout, hj]
    rw [hs1]
    exact ⟨hs1, by omega,
      ⟨fun hc => absurd hc (by omega), fun hc => absurd hc (by omega)⟩⟩
  | some uid =>
    cases hm : (logoutCandidates s uid).find?
        (fun t => verifyRefreshTokenHash t.tokenHash r) with
    | none =>
      have hs1 : (AuthService.logout s (some r)).2 = s := by
        simp [AuthService.logout, hj, hm]
      rw [hs1]
      exact ⟨hs1, by omega,
        ⟨fun hc => absurd hc (by omega), fun hc => absurd hc (by omega)⟩⟩
    | some matched =>
      have hmem := List.mem_of_find?_eq_some hm
      have hmemtok := (mem_logoutCandidates hmem).1
      have hrev : matched.revokedAt = none := (mem_logoutCandidates hmem).2.2
      have hcount : auditCount (AuthService.logout s (some r)).2
          "AUTH_LOGOUT" = auditCount s "AUTH_LOGOUT" + 1 := by
        simp only [AuthService.logout, hj, hm, AuditService.log, auditCount]
        simp [List.countP_cons]
      have hrevcount : revokedCount (AuthService.logout s (some r)).2 =
          revokedCount s + 1 := by
        simp only [AuthService.logout, hj, hm, AuditService.log, revokedCount]
        exact countP_revoke_map s.tokens matched.id s.now hInv.2.2.2 matched
          hmemtok rfl hrev
      refine ⟨?_, by omega, ⟨fun _ => hrevcount, fun _ => hcount⟩⟩
      apply logout_noop_of_no_active_match
      simp only [AuthService.logout, hj, hm]
      exact logout_revoked_safe hInv hm

theorem logout_idempotent_single_audit_witness :
    AuthInv wState ∧
    ((∀ tok, (AuthService.logout wState tok).1 = Except.ok ()) ∧
      (AuthService.logout (AuthService.logout wState (some wTok)).2
        (some wTok)).2 = (AuthService.logout wState (some wTok)).2 ∧
      auditCount (AuthService.logout wState (some wTok)).2 "AUTH_LOGOUT" ≤
        auditCount wState "AUTH_LOGOUT" + 1 ∧
      (auditCount (AuthService.logout wState (some wTok)).2 "AUTH_LOGOUT" =
          auditCount wState "AUTH_LOGOUT" + 1 ↔
        revokedCount (AuthService.logout wState (some wTok)).2 =
          revokedCount wState + 1)) :=
  ⟨by unfold AuthInv; decide,
    logout_idempotent_single_audit wState wTok (by unfold AuthInv; decide)⟩

/-- C6 (amended): Login with an unknown username and Login with a known
username but wrong password fail with the exact same HttpError
(401, invalid credentials); the two audit rows agree on action, entity type,
before/after and metadata, and differ exactly in the actor and entity-id
fields, both null for the unknown username and both the matched user's id
for the wrong password. -/
theorem login_failure_symmetry (sA sB : AuthState) (un pw : String) (u : User)
    (hun : un ≠ "") (hpw : pw ≠ "")
    (hA : sA.users.find?
      (fun x => decide (x.username = normalizeUsername un)) = none)
    (hB : sB.users.find?
      (fun x => decide (x.username = normalizeUsername un)) = some u)
    (hwrong : verifyPassword u.passwordHash pw = false) :
    (AuthService.login sA un pw).1 =
      Except.error ⟨401, "invalid credentials"⟩ ∧
    (AuthService.login sB un pw).1 =
      Except.error ⟨401, "invalid credentials"⟩ ∧
    ∃ recA recB : AuditRecord,
      (AuthService.login sA un pw).2.audits = recA :: sA.audits ∧
      (AuthService.login sB un pw).2.audits = recB :: sB.audits ∧
      recA.action = recB.action ∧ recA.entityType = recB.entityType ∧
      recA.before = recB.before ∧ recA.after = recB.after ∧
      recA.metadata = recB.metadata ∧
      recA.actorUserId = none ∧ recB.actorUserId = some u.id ∧
      recA.entityId = none ∧ recB.entityId = some u.id := by
  have hg : ¬(un = "" ∨ pw = "") := by tauto
  refine ⟨?_, ?_, ?_⟩
  · simp [AuthService.login, hg, hA]
  · simp [AuthService.login, hg, hB, hwrong]
  · refine ⟨⟨none, "AUTH_LOGIN_FAILED", some "User", none, [], [],
        [("reason", "INVALID_CREDENTIALS"),
          ("usernameAttempted", normalizeUsername un)]⟩,
      ⟨some u.id, "AUTH_LOGIN_FAILED", some "User", some u.id, [], [],
        [("reason", "INVALID_CREDENTIALS"),
          ("usernameAttempted", normalizeUsername un)]⟩,
      ?_, ?_, rfl, rfl, rfl, rfl, rfl, rfl, rfl, rfl, rfl⟩
    · simp [AuthService.login, hg, hA, AuditService.log]
    · simp [AuthService.login, hg, hB, hwrong, AuditService.log]

/-- An empty store: the username bob matches no user. -/
def cexStateA : AuthState :=
  { users := [], tokens := [], audits := [], nextRecordId := 0, nextJti := 0,
    nextNonce := 0, now := 0 }

/-- The user bob whose stored password differs from the attempted one. -/
def cexUserB : User :=
  { id := 7, username := "bob", passwordHash := "correcthorse",
    role := Role.USER, avatarUrl := none, lastLoginAt := none,
    deletedAt := none }

/-- A store holding bob. -/
def cexStateB : AuthState :=
  { cexStateA with users := [cexUserB] }

theorem login_failure_symmetry_witness :
    ("bob" ≠ "" ∧ "password1" ≠ "" ∧
      cexStateA.users.find?
        (fun x => decide (x.username = normalizeUsername "bob")) = none ∧
      cexStateB.users.find?
        (fun x => decide (x.username = normalizeUsername "bob")) =
        some cexUserB ∧
      verifyPassword cexUserB.passwordHash "password1" = false) ∧
    ((AuthService.login cexStateA "bob" "password1").1 =
        Except.error ⟨401, "invalid credentials"⟩ ∧
      (AuthService.login cexStateB "bob" "password1").1 =
        Except.error ⟨401, "invalid credentials"⟩ ∧
      ∃ recA recB : AuditRecord,
        (AuthService.login cexStateA "bob" "password1").2.audits =
          recA :: cexStateA.audits ∧
        (AuthService.login cexStateB "bob" "password1").2.audits =
          recB :: cexStateB.audits ∧
        recA.action = recB.action ∧ recA.entityType = recB.entityType ∧
        recA.before = recB.before ∧ recA.after = recB.after ∧
        recA.metadata = recB.metadata ∧
        recA.actorUserId = none ∧ recB.actorUserId = some cexUserB.id ∧
        recA.entityId = none ∧ recB.entityId = some cexUserB.id) :=
  ⟨⟨by decide, by decide, by decide, by decide, by decide⟩,
    login_failure_symmetry cexStateA cexStateB "bob" "password1" cexUserB
      (by decide) (by decide) (by decide) (by decide) (by decide)⟩

/-- C6 as stated is false: the two failed-login runs also differ in the audit
row's entityId field (null versus the matched user's id), not only in the
actor field. -/
theorem login_failure_audit_entity_differs_cex :
    (AuthService.login cexStateA "bob" "password1").1 =
      Except.error ⟨401, "invalid credentials"⟩ ∧
    (AuthService.login cexStateB "bob" "password1").1 =
      Except.error ⟨401, "invalid credentials"⟩ ∧
    (AuthService.login cexStateA "bob" "password1").2.audits =
      [⟨none, "AUTH_LOGIN_FAILED", some "User", none, [], [],
        [("reason", "INVALID_CREDENTIALS"), ("usernameAttempted", "bob")]⟩] ∧
    (AuthService.login cexStateB "bob" "password1").2.audits =
      [⟨some 7, "AUTH_LOGIN_FAILED", some "User", some 7, [], [],
        [("reason", "INVALID_CREDENTIALS"), ("usernameAttempted", "bob")]⟩] ∧
    ((AuthService.login cexStateA "bob" "password1").2.audits.head?.map
        AuditRecord.entityId ≠
      (AuthService.login cexStateB "bob" "password1").2.audits.head?.map
        AuditRecord.entityId) :=
  ⟨rfl, rfl, rfl, rfl, by decide⟩

/-- The avatar inputs rejected by normalizeAvatarUrl: a value that is
non-blank after trimming and is longer than 500 characters or lacks an
allowed scheme. -/
def avatarBad (a : Option String) : Bool :=
  match a with
  | none => false
  | some r =>
    let t := strTrim r
    (!decide (t = "")) && (decide (500 < t.length) ||
      !(strStartsWith t "http://" || strStartsWith t "https://" ||
        strStartsWith t "/"))

theorem normalizeAvatarUrl_error_400 {a : Option String} {e : HttpError}
    (h : normalizeAvatarUrl a = Except.error e) :
    e.statusCode = 400 ∧ avatarBad a = true := by
  cases a with
  | none => simp [normalizeAvatarUrl] at h
  | some r =>
    simp only [normalizeAvatarUrl] at h
    by_cases h1 : strTrim r = ""
    · simp [h1] at h
    · by_cases h2 : 500 < (strTrim r).length
      · simp [h1, h2] at h
        subst h
        exact ⟨rfl, by simp [avatarBad, h1, h2]⟩
      · by_cases h3 : (strStartsWith (strTrim r) "http://" ||
            strStartsWith (strTrim r) "https://" ||
            strStartsWith (strTrim r) "/") = true
        · simp [h1, h2, h3] at h
        · simp [h1, h2, h3] at h
          subst h
          refine ⟨rfl, ?_⟩
          simp only [avatarBad, Bool.and_eq_true, Bool.or_eq_true]
          refine ⟨by simp [h1], Or.inr ?_⟩
          simp [h3]

theorem normalizeAvatarUrl_ok_bad {a : Option String} {v : Option String}
    (h : normalizeAvatarUrl a = Except.ok v) : avatarBad a = false := by
  cases a with
  | none => simp [avatarBad]
  | some r =>
    simp only [normalizeAvatarUrl] at h
    by_cases h1 : strTrim r = ""
    · simp [avatarBad, h1]
    · by_cases h2 : 500 < (strTrim r).length
      · simp [h1, h2] at h
      · by_cases h3 : (strStartsWith (strTrim r) "http://" ||
            strStartsWith (strTrim r) "https://" ||
            strStartsWith (strTrim r) "/") = true
        · simp [avatarBad, h1, h2, h3]
        · simp [h1, h2, h3] at h

/-- C7 (amended): Register fails with a ValidationError (HTTP 400) exactly
when the username is shorter than 3 characters (the empty username included),
the password is shorter than 8 characters, or a supplied avatarRef that is
non-blank after trimming exceeds 500 characters or lacks an allowed scheme
(a blank or whitespace-only avatarRef is treated as absent); otherwise it
fails with a ConflictError (HTTP 409) exactly when the normalized username
already exists among ALL stored users — soft-deleted users included, the
lookup being an unfiltered unique-username query; deletion only frees a name
because deleteUser rewrites it. -/
theorem register_error_characterization (s : AuthState) (u p : String)
    (a : Option String) :
    ((∃ msg, (AuthService.register s u p a).1 = Except.error ⟨400, msg⟩) ↔
      (u.length < 3 ∨ p.length < 8 ∨ avatarBad a = true)) ∧
    ((AuthService.register s u p a).1 =
        Except.error ⟨409, "username already exists"⟩ ↔
      (¬(u.length < 3 ∨ p.length < 8 ∨ avatarBad a = true) ∧
        s.users.any (fun v => decide (v.username = normalizeUsername u)) =
          true)) := by
  by_cases hg : u = "" ∨ p = ""
  · have hres : (AuthService.register s u p a).1 =
        Except.error ⟨400, "username and password are required"⟩ := by
      simp [AuthService.register, AuthService.registerS, hg]
    have hrhs : u.length < 3 ∨ p.length < 8 ∨ avatarBad a = true := by
      rcases hg with h | h
      · subst h
        exact Or.inl (by decide)
      · subst h
        exact Or.inr (Or.inl (by decide))
    rw [hres]
    constructor
    · exact ⟨fun _ => hrhs, fun _ => ⟨"username and password are required", rfl⟩⟩
    · constructor
      · intro hx
        simp at hx
      · rintro ⟨hnot, _⟩
        exact absurd hrhs hnot
  · by_cases h3 : u.length < 3
    · have hres : (AuthService.register s u p a).1 =
          Except.error ⟨400, "username too short"⟩ := by
        simp [AuthService.register, AuthService.registerS, hg, h3]
      rw [hres]
      constructor
      · exact ⟨fun _ => Or.inl h3, fun _ => ⟨"username too short", rfl⟩⟩
      · constructor
        · intro hx
          simp at hx
        · rintro ⟨hnot, _⟩
          exact absurd (Or.inl h3) hnot
    · by_cases h8 : p.length < 8
      · have hres : (AuthService.register s u p a).1 =
            Except.error ⟨400, "password too short"⟩ := by
          simp [AuthService.register, AuthService.registerS, hg, h3, h8]
        rw [hres]
        constructor
        · exact ⟨fun _ => Or.inr (Or.inl h8),
            fun _ => ⟨"password too short", rfl⟩⟩
        · constructor
          · intro hx
            simp at hx
          · rintro ⟨hnot, _⟩
            exact absurd (Or.inr (Or.inl h8)) hnot
      · cases hA : normalizeAvatarUrl a with
        | error e =>
          obtain ⟨h400, hbad⟩ := normalizeAvatarUrl_error_400 hA
          obtain ⟨ec, em⟩ := e
          simp only at h400
          subst h400
          have hres : (AuthService.register s u p a).1 =
              Except.error ⟨400, em⟩ := by
            simp [AuthService.register, AuthService.registerS, hg, h3, h8, hA]
          rw [hres]
          constructor
          · exact ⟨fun _ => Or.inr (Or.inr hbad), fun _ => ⟨em, rfl⟩⟩
          · constructor
            · intro hx
              simp at hx
            · rintro ⟨hnot, _⟩
              exact absurd (Or.inr (Or.inr hbad)) hnot
        | ok av =>
          have hbadf := normalizeAvatarUrl_ok_bad hA
          have hnot : ¬(u.length < 3 ∨ p.length < 8 ∨ avatarBad a = true) := by
            rintro (h | h | h)
            · exact h3 h
            · exact h8 h
            · rw [hbadf] at h
              cases h
          by_cases hdup : s.users.any
              (fun v => decide (v.username = normalizeUsername u)) = true
          · have hres : (AuthService.register s u p a).1 =
                Except.error ⟨409, "username already exists"⟩ := by
              simp [AuthService.register, AuthService.registerS, hg, h3, h8,
                hA, hdup]
            rw [hres]
            constructor
            · constructor
              · rintro ⟨msg, hx⟩
                simp at hx
              · intro hr
                exact absurd hr hnot
            · exact ⟨fun _ => ⟨hnot, hdup⟩, fun _ => rfl⟩
          · have hres : (AuthService.register s u p a).1 = Except.ok
                ⟨{ id := s.nextRecordId, username := normalizeUsername u,
                   passwordHash := hashPassword p, role := Role.USER,
                   avatarUrl := av, lastLoginAt := none, deletedAt := none }⟩ := by
              simp [AuthService.register, AuthService.registerS, hg, h3, h8,
                hA, hdup]
            rw [hres]
            constructor
            · constructor
              · rintro ⟨msg, hx⟩
                simp at hx
              · intro hr
                exact absurd hr hnot
            · constructor
              · intro hx
                simp at hx
              · rintro ⟨_, hd⟩
                exact absurd hd hdup

/-- A soft-deleted user whose (rewritten) username is the one being
registered. -/
def cexDeletedUser : User :=
  { id := 3, username := "deleted_bob_uuid0", passwordHash := "whatever1",
    role := Role.USER, avatarUrl := none, lastLoginAt := none,
    deletedAt := some 50 }

/-- A store whose only user is soft-deleted. -/
def cexStateD : AuthState :=
  { users := [cexDeletedUser], tokens := [], audits := [], nextRecordId := 4,
    nextJti := 0, nextNonce := 1, now := 60 }

/-- C7 as stated is false: the duplicate check does not exclude soft-deleted
users.  Registering the name held by a soft-deleted row fails with
ConflictError even though no non-deleted user carries that username. -/
theorem register_conflict_includes_deleted_cex :
    (AuthService.register cexStateD "deleted_bob_uuid0" "password123" none).1 =
      Except.error ⟨409, "username already exists"⟩ ∧
    cexStateD.users = [cexDeletedUser] ∧
    cexDeletedUser.deletedAt = some 50 ∧
    cexStateD.users.all (fun v => !decide (v.deletedAt = none)) = true :=
  ⟨rfl, rfl, rfl, by decide⟩

/-- C2 (amended): an audit-sink failure is not isolated from the primary
operation.  Register awaits the audit append with no try/catch, so whenever
register's own steps all succeed (the sink-available run returns ok), the
same call with a failing sink surfaces an error (the 500 produced by the
errorHandler for the propagated exception) — yet the user row written before
the audit append stays persisted, so the operation is aborted without being
rolled back.  Login, refresh and the message mutations await their audit
appends in the same unprotected way; only logout swallows the failure. -/
theorem register_audit_failure_propagates (s : AuthState) (u p : String)
    (a : Option String) (out : RegisterOk)
    (hok : (AuthService.registerS false s u p a).1 = Except.ok out) :
    (AuthService.registerS true s u p a).1 =
      Except.error ⟨500, "Internal Server Error"⟩ ∧
    (AuthService.registerS true s u p a).2.users.length = s.users.length + 1 ∧
    out.user ∈ (AuthService.registerS true s u p a).2.users := by
  by_cases hg : u = "" ∨ p = ""
  · exfalso
    simp [AuthService.registerS, hg] at hok
  by_cases h3 : u.length < 3
  · exfalso
    simp [AuthService.registerS, hg, h3] at hok
  by_cases h8 : p.length < 8
  · exfalso
    simp [AuthService.registerS, hg, h3, h8] at hok
  cases hA : normalizeAvatarUrl a with
  | error e =>
    exfalso
    simp [AuthService.registerS, hg, h3, h8, hA] at hok
  | ok av =>
    by_cases hdup : s.users.any
        (fun v => decide (v.username = normalizeUsername u)) = true
    · exfalso
      simp [AuthService.registerS, hg, h3, h8, hA, hdup] at hok
    · have h1 : (AuthService.registerS false s u p a).1 = Except.ok
          ⟨{ id := s.nextRecordId, username := normalizeUsername u,
             passwordHash := hashPassword p, role := Role.USER,
             avatarUrl := av, lastLoginAt := none, deletedAt := none }⟩ := by
        simp [AuthService.registerS, hg, h3, h8, hA, hdup]
      rw [h1] at hok
      injection hok with h2
      refine ⟨?_, ?_, ?_⟩
      · simp [AuthService.registerS, hg, h3, h8, hA, hdup]
      · simp [AuthService.registerS, hg, h3, h8, hA, hdup]
      · rw [← h2]
        simp [AuthService.registerS, hg, h3, h8, hA, hdup]

theorem register_audit_failure_propagates_witness :
    (AuthService.registerS false cexStateA "carol" "password123" none).1 =
      Except.ok ⟨⟨0, "carol", "password123", Role.USER, none, none, none⟩⟩ ∧
    ((AuthService.registerS true cexStateA "carol" "password123" none).1 =
        Except.error ⟨500, "Internal Server Error"⟩ ∧
      (AuthService.registerS true cexStateA "carol" "password123"
          none).2.users.length = cexStateA.users.length + 1 ∧
      RegisterOk.user ⟨⟨0, "carol", "password123", Role.USER, none, none,
          none⟩⟩ ∈
        (AuthService.registerS true cexStateA "carol" "password123"
          none).2.users) :=
  ⟨rfl, register_audit_failure_propagates cexStateA "carol" "password123" none
    ⟨⟨0, "carol", "password123", Role.USER, none, none, none⟩⟩ rfl⟩

/-- C2 as stated is false: here is a register call whose own steps all
succeed (with the sink available the very same call returns ok), yet when
the audit append throws, the call returns an error instead of succeeding —
while the user row it created stays in the store. -/
theorem register_audit_failure_cex :
    (AuthService.registerS false cexStateA "alice" "password123" none).1 =
      Except.ok ⟨⟨0, "alice", "password123", Role.USER, none, none, none⟩⟩ ∧
    (AuthService.registerS true cexStateA "alice" "password123" none).1 =
      Except.error ⟨500, "Internal Server Error"⟩ ∧
    (⟨0, "alice", "password123", Role.USER, none, none, none⟩ : User) ∈
      (AuthService.registerS true cexStateA "alice" "password123"
        none).2.users :=
  ⟨rfl, rfl, by decide⟩

/-- C8: a successful DeleteUser never removes the row: the user count is
unchanged and every surviving row keeps its id.  The deleted user's row is
rewritten — username becomes the deleted_ placeholder (strictly longer than,
hence different from, the original, freeing the original name), passwordHash
becomes the hash of a fresh random value that no other password can verify
against, the avatar is cleared and the deletion marker set — and every
refresh-token row of that user is revoked in the same transaction. -/
theorem deleteUser_soft_delete_effects (s : AuthState) (uid aid : Nat)
    (u : User)
    (hfind : s.users.find? (fun v => decide (v.id = uid)) = some u)
    (hnotdel : u.deletedAt = none) (hne : uid ≠ aid) :
    (UsersService.deleteUser s uid aid).1 = Except.ok () ∧
    (UsersService.deleteUser s uid aid).2.users.length = s.users.length ∧
    (∀ v ∈ (UsersService.deleteUser s uid aid).2.users, v.id = uid →
      v.username = "deleted_" ++ u.username ++ "_" ++ randomUUID s.nextNonce ∧
      v.username ≠ u.username ∧
      v.passwordHash = hashPassword (randomUUID (s.nextNonce + 1)) ∧
      (∀ pw, pw ≠ randomUUID (s.nextNonce + 1) →
        verifyPassword v.passwordHash pw = false) ∧
      v.avatarUrl = none ∧ v.deletedAt = some s.now) ∧
    (∀ t ∈ (UsersService.deleteUser s uid aid).2.tokens, t.userId = uid →
      t.revokedAt = some s.now) ∧
    (∀ v ∈ (UsersService.deleteUser s uid aid).2.users, ∃ w ∈ s.users,
      v.id = w.id) := by
  have hd : ¬(u.deletedAt ≠ none) := by
    simp [hnotdel]
  simp only [UsersService.deleteUser, hfind]
  rw [if_neg hd, if_neg hne]
  refine ⟨rfl, ?_, ?_, ?_, ?_⟩
  · simp [AuditService.log]
  · intro v hv hvid
    rcases List.mem_map.mp hv with ⟨w, hw, rfl⟩
    by_cases hb : (w.id == uid) = true
    · rw [if_pos hb]
      refine ⟨rfl, ?_, rfl, ?_, rfl, rfl⟩
      · intro heq
        have hlen := congrArg String.length heq
        rw [String.length_append, String.length_append,
          String.length_append] at hlen
        have e1 : ("deleted_" : String).length = 8 := rfl
        have e2 : ("_" : String).length = 1 := rfl
        rw [e1, e2] at hlen
        omega
      · intro pw hpw
        exact beq_eq_false_iff_ne.mpr (Ne.symm hpw)
    · rw [if_neg hb] at hvid
      simp at hb
      exact absurd hvid hb
  · intro t ht htid
    rcases List.mem_map.mp ht with ⟨w, hw, rfl⟩
    by_cases hb : (w.userId == uid) = true
    · rw [if_pos hb]
    · rw [if_neg hb] at htid
      simp at hb
      exact absurd htid hb
  · intro v hv
    rcases List.mem_map.mp hv with ⟨w, hw, rfl⟩
    refine ⟨w, hw, ?_⟩
    by_cases hb : (w.id == uid) = true <;> simp [hb]

/-- A second user acting as the admin who deletes user 0. -/
def w8Admin : User :=
  { id := 1, username := "admin", passwordHash := "adminpass1",
    role := Role.ADMIN, avatarUrl := none, lastLoginAt := none,
    deletedAt := none }

/-- Store with the target user, an admin, and one refresh-token row. -/
def w8State : AuthState :=
  { users := [wUser, w8Admin], tokens := [wRecord], audits := [],
    nextRecordId := 2, nextJti := 1, nextNonce := 0, now := 100 }

theorem deleteUser_soft_delete_effects_witness :
    (w8State.users.find? (fun v => decide (v.id = 0)) = some wUser ∧
      wUser.deletedAt = none ∧ (0 : Nat) ≠ 1) ∧
    ((UsersService.deleteUser w8State 0 1).1 = Except.ok () ∧
      (UsersService.deleteUser w8State 0 1).2.users.length =
        w8State.users.length ∧
      (∀ v ∈ (UsersService.deleteUser w8State 0 1).2.users, v.id = 0 →
        v.username = "deleted_" ++ wUser.username ++ "_" ++
          randomUUID w8State.nextNonce ∧
        v.username ≠ wUser.username ∧
        v.passwordHash = hashPassword (randomUUID (w8State.nextNonce + 1)) ∧
        (∀ pw, pw ≠ randomUUID (w8State.nextNonce + 1) →
          verifyPassword v.passwordHash pw = false) ∧
        v.avatarUrl = none ∧ v.deletedAt = some w8State.now) ∧
      (∀ t ∈ (UsersService.deleteUser w8State 0 1).2.tokens, t.userId = 0 →
        t.revokedAt = some w8State.now) ∧
      (∀ v ∈ (UsersService.deleteUser w8State 0 1).2.users, ∃ w ∈ w8State.users,
        v.id = w.id)) :=
  ⟨⟨by decide, rfl, by decide⟩,
    deleteUser_soft_delete_effects w8State 0 1 wUser (by decide) rfl
      (by decide)⟩

/-- A valid refresh token whose record will be the 11th most recent. -/
def c9tok : Token := ⟨0, 0, 2000000000, true⟩

/-- The i-th refresh-token record of user 0 (created at time i). -/
def c9record (i : Nat) : RefreshTokenRecord :=
  ⟨i, 0, ⟨0, i, 2000000000, true⟩, i, 2000000000, none, none⟩

/-- A store in which user 0 holds 11 concurrently active refresh tokens. -/
def c9state : AuthState :=
  { users := [wUser], tokens := (List.range 11).map c9record, audits := [],
    nextRecordId := 11, nextJti := 11, nextNonce := 0, now := 100 }

/-- C9: the Refresh candidate scan is capped at the 10 most recently created
active records (prisma take 10).  Consequently, with 11 concurrently active
records, the token of the oldest one — signature-valid, non-revoked and
non-expired, but absent from the capped candidate list — is rejected with
the 401 not-recognized AuthenticationError and audited with reason
REFRESH_TOKEN_NOT_RECOGNIZED, even though its record is active in the
store. -/
theorem refresh_candidate_scan_bounded :
    (∀ s uid, (refreshCandidates s uid).length ≤ 10) ∧
    c9record 0 ∈ c9state.tokens ∧
    (c9record 0).revokedAt = none ∧
    c9state.now < (c9record 0).expiresAt ∧
    jwtVerify c9tok c9state.now = some 0 ∧
    verifyRefreshTokenHash (c9record 0).tokenHash c9tok = true ∧
    c9record 0 ∉ refreshCandidates c9state 0 ∧
    (AuthService.refresh c9state (some c9tok)).1 =
      Except.error ⟨401, "refresh token not recognized"⟩ ∧
    (AuthService.refresh c9state (some c9tok)).2.audits.head? =
      some ⟨some 0, "AUTH_REFRESH_FAILED", some "User", some 0, [], [],
        [("reason", "REFRESH_TOKEN_NOT_RECOGNIZED")]⟩ := by
  refine ⟨?_, by decide, rfl, by decide, rfl, by decide, by decide, rfl, rfl⟩
  intro s uid
  unfold refreshCandidates
  simp [List.length_take]

theorem presenceGet_cons (k : Nat) (v : PresenceData) (rest : PresenceMap)
    (uid : Nat) :
    presenceGet ((k, v) :: rest) uid =
      if (k == uid) = true then some v else presenceGet rest uid := by
  simp only [presenceGet, List.find?]
  cases hk : (k == uid) <;> simp

theorem presenceGet_set_self (m : PresenceMap) (uid : Nat) (d : PresenceData) :
    presenceGet (presenceSet m uid d) uid = some d := by
  induction m with
  | nil => simp [presenceSet, presenceGet_cons]
  | cons kv rest ih =>
    obtain ⟨k, v⟩ := kv
    simp only [presenceSet]
    by_cases hk : (k == uid) = true
    · rw [if_pos hk, presenceGet_cons, if_pos hk]
    · rw [if_neg hk, presenceGet_cons, if_neg hk]
      exact ih

theorem presenceGet_set_ne (m : PresenceMap) (uid uidB : Nat)
    (d : PresenceData) (h : uidB ≠ uid) :
    presenceGet (presenceSet m uid d) uidB = presenceGet m uidB := by
  have huB : (uid == uidB) = false := beq_eq_false_iff_ne.mpr (Ne.symm h)
  induction m with
  | nil => simp [presenceSet, presenceGet_cons, huB, presenceGet]
  | cons kv rest ih =>
    obtain ⟨k, v⟩ := kv
    simp only [presenceSet]
    by_cases hk : (k == uid) = true
    · have hkB : (k == uidB) = false := by
        rw [beq_iff_eq.mp hk]
        exact huB
      rw [if_pos hk, presenceGet_cons, presenceGet_cons, hkB]
      simp
    · rw [if_neg hk, presenceGet_cons, presenceGet_cons]
      cases hkB : (k == uidB) <;> simp [ih]

theorem presenceGet_delete_self (m : PresenceMap) (uid : Nat) :
    presenceGet (presenceDelete m uid) uid = none := by
  induction m with
  | nil => rfl
  | cons kv rest ih =>
    obtain ⟨k, v⟩ := kv
    simp only [presenceDelete, List.filter_cons] at ih ⊢
    by_cases hk : (k == uid) = true
    · rw [if_neg (by simp [bne, hk])]
      exact ih
    · rw [if_pos (by simp [bne, hk]), presenceGet_cons, if_neg hk]
      exact ih

theorem presenceGet_delete_ne (m : PresenceMap) (uid uidB : Nat)
    (h : uidB ≠ uid) :
    presenceGet (presenceDelete m uid) uidB = presenceGet m uidB := by
  induction m with
  | nil => rfl
  | cons kv rest ih =>
    obtain ⟨k, v⟩ := kv
    simp only [presenceDelete, List.filter_cons] at ih ⊢
    by_cases hk : (k == uid) = true
    · have hkB : (k == uidB) = false := by
        rw [beq_iff_eq.mp hk]
        exact beq_eq_false_iff_ne.mpr (Ne.symm h)
      rw [if_neg (by simp [bne, hk]), presenceGet_cons, hkB]
      simp [ih]
    · rw [if_pos (by simp [bne, hk]), presenceGet_cons, presenceGet_cons]
      cases hkB : (k == uidB) <;> simp [ih]

/-- Every stored presence entry has at least one connection. -/
def GoodMap (m : PresenceMap) : Prop := ∀ p ∈ m, 1 ≤ p.2.connections

theorem mem_presenceSet {m : PresenceMap} {uid : Nat} {d : PresenceData}
    {p : Nat × PresenceData} (hp : p ∈ presenceSet m uid d) :
    p.2 = d ∨ p ∈ m := by
  induction m with
  | nil =>
    simp only [presenceSet, List.mem_singleton] at hp
    rw [hp]
    exact Or.inl rfl
  | cons kv rest ih =>
    obtain ⟨k, v⟩ := kv
    simp only [presenceSet] at hp
    by_cases hk : (k == uid) = true
    · rw [if_pos hk] at hp
      rcases List.mem_cons.mp hp with rfl | hp2
      · exact Or.inl rfl
      · exact Or.inr (List.mem_cons_of_mem _ hp2)
    · rw [if_neg hk] at hp
      rcases List.mem_cons.mp hp with rfl | hp2
      · exact Or.inr (List.mem_cons_self _ _)
      · rcases ih hp2 with h1 | h2
        · exact Or.inl h1
        · exact Or.inr (List.mem_cons_of_mem _ h2)

theorem goodMap_step {m : PresenceMap} (h : GoodMap m) (e : PresenceEvent) :
    GoodMap (presenceStep m e) := by
  cases e with
  | connect uid un av =>
    simp only [presenceStep]
    cases hg : presenceGet m uid with
    | none =>
      intro p hp
      rcases mem_presenceSet hp with h2 | h2
      · rw [h2]
      · exact h p h2
    | some ex =>
      intro p hp
      rcases mem_presenceSet hp with h2 | h2
      · rw [h2]
        exact Nat.succ_le_succ (Nat.zero_le _)
      · exact h p h2
  | disconnect uid =>
    simp only [presenceStep]
    cases hg : presenceGet m uid with
    | none => exact h
    | some cur =>
      simp only []
      by_cases hz : cur.connections - 1 = 0
      · rw [if_pos hz]
        intro p hp
        exact h p (List.mem_of_mem_filter hp)
      · rw [if_neg hz]
        intro p hp
        rcases mem_presenceSet hp with h2 | h2
        · rw [h2]
          show 1 ≤ cur.connections - 1
          omega
        · exact h p h2

theorem goodMap_run (m : PresenceMap) (evs : List PresenceEvent)
    (h : GoodMap m) : GoodMap (presenceRun m evs) := by
  induction evs generalizing m with
  | nil => exact h
  | cons e rest ih => exact ih _ (goodMap_step h e)

theorem disconnectsOf_cons (uid : Nat) (e : PresenceEvent)
    (l : List PresenceEvent) :
    disconnectsOf uid (e :: l) = disconnectsOf uid l + disconnectsOf uid [e] := by
  simp [disconnectsOf, List.countP_cons]

theorem connectsOf_cons (uid : Nat) (e : PresenceEvent)
    (l : List PresenceEvent) :
    connectsOf uid (e :: l) = connectsOf uid l + connectsOf uid [e] := by
  simp [connectsOf, List.countP_cons]

theorem connCount_step (m : PresenceMap) (uid : Nat) (e : PresenceEvent)
    (h1 : disconnectsOf uid [e] ≤ connCount m uid) :
    connCount (presenceStep m e) uid + disconnectsOf uid [e] =
      connCount m uid + connectsOf uid [e] := by
  cases e with
  | connect uidB un av =>
    have hd : disconnectsOf uid [PresenceEvent.connect uidB un av] = 0 := by
      simp [disconnectsOf]
    rw [hd]
    by_cases he : uidB = uid
    · subst he
      have hc : connectsOf uidB [PresenceEvent.connect uidB un av] = 1 := by
        simp [connectsOf]
      rw [hc]
      simp only [presenceStep]
      cases hg : presenceGet m uidB with
      | none => simp [connCount, hg, presenceGet_set_self]
      | some ex => simp [connCount, hg, presenceGet_set_self]
    · have hc : connectsOf uid [PresenceEvent.connect uidB un av] = 0 := by
        simp [connectsOf, beq_eq_false_iff_ne.mpr he]
      rw [hc]
      simp only [presenceStep]
      cases hg : presenceGet m uidB with
      | none =>
        simp [connCount, presenceGet_set_ne _ _ _ _ (Ne.symm he)]
      | some ex =>
        simp [connCount, presenceGet_set_ne _ _ _ _ (Ne.symm he)]
  | disconnect uidB =>
    have hc : connectsOf uid [PresenceEvent.disconnect uidB] = 0 := by
      simp [connectsOf]
    rw [hc]
    by_cases he : uidB = uid
    · subst he
      have hd : disconnectsOf uidB [PresenceEvent.disconnect uidB] = 1 := by
        simp [disconnectsOf]
      rw [hd] at h1 ⊢
      simp only [presenceStep]
      cases hg : presenceGet m uidB with
      | none => simp [connCount, hg] at h1
      | some cur =>
        simp only []
        have hcc : connCount m uidB = cur.connections := by
          simp [connCount, hg]
        by_cases hz : cur.connections - 1 = 0
        · rw [if_pos hz]
          have hdel : connCount (presenceDelete m uidB) uidB = 0 := by
            simp [connCount, presenceGet_delete_self]
          rw [hdel]
          omega
        · rw [if_neg hz]
          have hset : connCount (presenceSet m uidB
              ⟨cur.username, cur.avatarUrl, cur.connections - 1⟩) uidB =
              cur.connections - 1 := by
            simp [connCount, presenceGet_set_self]
          rw [hset]
          omega
    · have hd : disconnectsOf uid [PresenceEvent.disconnect uidB] = 0 := by
        simp [disconnectsOf, beq_eq_false_iff_ne.mpr he]
      rw [hd]
      simp only [presenceStep]
      cases hg : presenceGet m uidB with
      | none => simp
      | some cur =>
        simp only []
        by_cases hz : cur.connections - 1 = 0
        · rw [if_pos hz]
          simp [connCount, presenceGet_delete_ne _ _ _ (Ne.symm he)]
        · rw [if_neg hz]
          simp [connCount, presenceGet_set_ne _ _ _ _ (Ne.symm he)]

theorem presenceRun_count (evs : List PresenceEvent) (m : PresenceMap)
    (uid : Nat)
    (hwf : ∀ n, disconnectsOf uid (evs.take n) ≤
      connCount m uid + connectsOf uid (evs.take n)) :
    connCount (presenceRun m evs) uid + disconnectsOf uid evs =
      connCount m uid + connectsOf uid evs := by
  induction evs generalizing m with
  | nil => simp [presenceRun, connectsOf, disconnectsOf]
  | cons e rest ih =>
    have h1 : disconnectsOf uid [e] ≤ connCount m uid := by
      have h2 := hwf 1
      rw [List.take_succ_cons, List.take_zero] at h2
      cases e with
      | connect u un av => simp [disconnectsOf]
      | disconnect u =>
        have hc : connectsOf uid [PresenceEvent.disconnect u] = 0 := by
          simp [connectsOf]
        rw [hc] at h2
        omega
    have hstep := connCount_step m uid e h1
    have hwf2 : ∀ n, disconnectsOf uid (rest.take n) ≤
        connCount (presenceStep m e) uid + connectsOf uid (rest.take n) := by
      intro n
      have h2 := hwf (n + 1)
      rw [List.take_succ_cons, disconnectsOf_cons, connectsOf_cons] at h2
      omega
    have hrec := ih (presenceStep m e) hwf2
    have hrun : presenceRun m (e :: rest) =
        presenceRun (presenceStep m e) rest := rfl
    rw [hrun, disconnectsOf_cons, connectsOf_cons]
    omega

theorem presenceGet_mem {m : PresenceMap} {uid : Nat} {d : PresenceData}
    (h : presenceGet m uid = some d) : ∃ k, (k, d) ∈ m := by
  simp only [presenceGet] at h
  cases hf : m.find? (fun p => p.1 == uid) with
  | none => rw [hf] at h; simp at h
  | some p =>
    rw [hf] at h
    have h2 : p.2 = d := by
      simpa using h
    refine ⟨p.1, ?_⟩
    have hp := List.mem_of_find?_eq_some hf
    rw [← h2]
    simpa using hp

/-- C5: for any sequence of connect/disconnect events that is realizable by
the gateway (along every prefix no user has more disconnects than connects,
since each disconnect is fired by a previously accepted connection), each
user's connectionCount in the presence map equals that user's connects minus
disconnects — never going negative, as disconnects never exceed connects —
and the user has an entry in the map exactly while that count is positive. -/
theorem presence_conservation (evs : List PresenceEvent) (uid : Nat)
    (h : wfEvents evs) :
    disconnectsOf uid evs ≤ connectsOf uid evs ∧
    connCount (presenceRun [] evs) uid =
      connectsOf uid evs - disconnectsOf uid evs ∧
    ((presenceGet (presenceRun [] evs) uid).isSome ↔
      0 < connCount (presenceRun [] evs) uid) := by
  have hwf : ∀ n, disconnectsOf uid (evs.take n) ≤
      connCount ([] : PresenceMap) uid + connectsOf uid (evs.take n) := by
    intro n
    have h2 := h uid n
    have hz : connCount ([] : PresenceMap) uid = 0 := rfl
    omega
  have hmain := presenceRun_count evs [] uid hwf
  have hzero : connCount ([] : PresenceMap) uid = 0 := rfl
  rw [hzero, Nat.zero_add] at hmain
  refine ⟨by omega, by omega, ?_⟩
  have hgood : GoodMap (presenceRun [] evs) := by
    apply goodMap_run
    intro p hp
    simp at hp
  cases hg : presenceGet (presenceRun [] evs) uid with
  | none => simp [connCount, hg]
  | some d =>
    obtain ⟨k, hk⟩ := presenceGet_mem hg
    have hd : 1 ≤ d.connections := hgood (k, d) hk
    simp only [connCount, hg, Option.isSome_some, true_iff]
    omega

/-- The two-tab scenario: one user connects twice then disconnects once. -/
def w5Events : List PresenceEvent :=
  [PresenceEvent.connect 1 "alice" none, PresenceEvent.connect 1 "alice" none,
    PresenceEvent.disconnect 1]

theorem presence_conservation_witness :
    wfEvents w5Events ∧
    (disconnectsOf 1 w5Events ≤ connectsOf 1 w5Events ∧
      connCount (presenceRun [] w5Events) 1 =
        connectsOf 1 w5Events - disconnectsOf 1 w5Events ∧
      ((presenceGet (presenceRun [] w5Events) 1).isSome ↔
        0 < connCount (presenceRun [] w5Events) 1)) :=
  have hwf : wfEvents w5Events := by
    intro uid n
    rcases n with _ | _ | _ | n <;>
      simp [w5Events, disconnectsOf, connectsOf, List.take,
        List.countP_cons, List.countP_nil]
  ⟨hwf, presence_conservation w5Events 1 hwf⟩

/-- C10: while a user's presence entry exists, its username and avatar stay
the values captured when the entry was created: a connect for an
already-present user ignores the freshly fetched handshake data and only
increments the count, and a disconnect that leaves the entry in place never
touches the metadata.  So across any event sequence during which the entry
is never removed, only the connection count can change; the metadata can
change only by the entry being removed and recreated. -/
theorem presence_metadata_frozen (evs : List PresenceEvent) (m : PresenceMap)
    (uid : Nat) (d0 : PresenceData) (h0 : presenceGet m uid = some d0)
    (hlive : ∀ n,
      (presenceGet (presenceRun m (evs.take n)) uid).isSome = true) :
    ∃ c, presenceGet (presenceRun m evs) uid =
      some ⟨d0.username, d0.avatarUrl, c⟩ := by
  induction evs generalizing m d0 with
  | nil => exact ⟨d0.connections, h0⟩
  | cons e rest ih =>
    have h1 : (presenceGet (presenceStep m e) uid).isSome = true := by
      have h2 := hlive 1
      rw [List.take_succ_cons, List.take_zero] at h2
      exact h2
    have hstep : ∃ d1 : PresenceData,
        presenceGet (presenceStep m e) uid = some d1 ∧
        d1.username = d0.username ∧ d1.avatarUrl = d0.avatarUrl := by
      cases e with
      | connect uidB un av =>
        by_cases he : uidB = uid
        · rw [he]
          simp only [presenceStep, h0]
          exact ⟨⟨d0.username, d0.avatarUrl, d0.connections + 1⟩,
            presenceGet_set_self m uid _, rfl, rfl⟩
        · cases hg : presenceGet m uidB with
          | none =>
            simp only [presenceStep, hg]
            refine ⟨d0, ?_, rfl, rfl⟩
            rw [presenceGet_set_ne m uidB uid _ (Ne.symm he)]
            exact h0
          | some ex =>
            simp only [presenceStep, hg]
            refine ⟨d0, ?_, rfl, rfl⟩
            rw [presenceGet_set_ne m uidB uid _ (Ne.symm he)]
            exact h0
      | disconnect uidB =>
        by_cases he : uidB = uid
        · rw [he] at h1 ⊢
          simp only [presenceStep, h0] at h1 ⊢
          by_cases hz : d0.connections - 1 = 0
          · exfalso
            rw [if_pos hz, presenceGet_delete_self] at h1
            simp at h1
          · rw [if_neg hz]
            exact ⟨⟨d0.username, d0.avatarUrl, d0.connections - 1⟩,
              presenceGet_set_self m uid _, rfl, rfl⟩
        · cases hg : presenceGet m uidB with
          | none =>
            simp only [presenceStep, hg]
            exact ⟨d0, h0, rfl, rfl⟩
          | some cur =>
            simp only [presenceStep, hg]
            by_cases hz : cur.connections - 1 = 0
            · rw [if_pos hz]
              refine ⟨d0, ?_, rfl, rfl⟩
              rw [presenceGet_delete_ne m uidB uid (Ne.symm he)]
              exact h0
            · rw [if_neg hz]
              refine ⟨d0, ?_, rfl, rfl⟩
              rw [presenceGet_set_ne m uidB uid _ (Ne.symm he)]
              exact h0
    obtain ⟨d1, hd1, hu1, ha1⟩ := hstep
    have hlive2 : ∀ n, (presenceGet
        (presenceRun (presenceStep m e) (rest.take n)) uid).isSome = true := by
      intro n
      have h2 := hlive (n + 1)
      rw [List.take_succ_cons] at h2
      exact h2
    obtain ⟨c, hc⟩ := ih (presenceStep m e) d1 hd1 hlive2
    refine ⟨c, ?_⟩
    have hrun : presenceRun m (e :: rest) =
        presenceRun (presenceStep m e) rest := rfl
    rw [hrun, hc, hu1, ha1]

/-- A map in which user 1 is present with the metadata of first connect. -/
def w10Map : PresenceMap := [(1, ⟨"alice", some "/avatars/a1.jpg", 1⟩)]

/-- A reconnect carrying changed metadata, then one disconnect. -/
def w10Events : List PresenceEvent :=
  [PresenceEvent.connect 1 "alice-renamed" none, PresenceEvent.disconnect 1]

theorem presence_metadata_frozen_witness :
    (presenceGet w10Map 1 =
        some ⟨"alice", some "/avatars/a1.jpg", 1⟩ ∧
      ∀ n, (presenceGet (presenceRun w10Map (w10Events.take n)) 1).isSome =
        true) ∧
    ∃ c, presenceGet (presenceRun w10Map w10Events) 1 =
      some ⟨"alice", some "/avatars/a1.jpg", c⟩ :=
  have hlive : ∀ n,
      (presenceGet (presenceRun w10Map (w10Events.take n)) 1).isSome = true := by
    intro n
    rcases n with _ | _ | n
    · decide
    · decide
    · rw [List.take_of_length_le (by simp [w10Events])]
      decide
  ⟨⟨by decide, hlive⟩,
    presence_metadata_frozen w10Events w10Map 1
      ⟨"alice", some "/avatars/a1.jpg", 1⟩ (by decide) hlive⟩
